import Mathlib

/-!
# Verification of the Telegram hashtag survey bot

A shallow embedding of `src/telegram_hashtag_bot.py` and proofs of the
specification's claims about it.

Modelling conventions:
* Python strings are modelled as `List Char`; reply texts and persisted
  fields are packaged back into Lean `String`s at the boundary.
* `str.strip()` is modelled over the ASCII whitespace characters
  (space, tab, newline, carriage return, vertical tab, form feed).
* The regex character classes `\d` and `[A-Za-z0-9]` are modelled by
  `Char.isDigit` and `Char.isAlphanum` (the ASCII ranges).
* I/O is modelled explicitly: the CSV file is an optional list of rows,
  `save_row` takes a boolean fault flag and returns `Except`, and an
  uncaught Python exception is recorded in the `raised` field of the
  handler's result (the exception propagates to the framework caller).
* `time.time()` is environmental input with no bearing on any claim, so
  the persisted row model omits the timestamp column.
-/

/-- The whitespace characters removed by Python's `str.strip()`
(restricted to the ASCII range). -/
def isPySpace (c : Char) : Bool :=
  c = ' ' || c = '\t' || c = '\n' || c = '\r' || c = '\x0b' || c = '\x0c'

/-- Python `text.strip()`: drop leading and trailing whitespace. -/
def pyStrip (cs : List Char) : List Char :=
  ((cs.dropWhile isPySpace).reverse.dropWhile isPySpace).reverse

/-- `\d{2,4}` of `PID_PATTERN`: two to four decimal digits. -/
def digits24 (cs : List Char) : Bool :=
  decide (2 ≤ cs.length) && decide (cs.length ≤ 4) && cs.all Char.isDigit

/-- `PID_PATTERN.fullmatch`: the regex `^P?\d{2,4}$` with `re.IGNORECASE`,
i.e. an optional leading `P` or `p` followed by 2 to 4 decimal digits. -/
def pidMatch (cs : List Char) : Bool :=
  (match cs with
   | c :: rest => (c = 'P' || c = 'p') && digits24 rest
   | [] => false) || digits24 cs

/-- `HASHTAG_PATTERN.fullmatch`: the regex `^[A-Za-z0-9]+$`, i.e. a
non-empty string of ASCII letters and digits. -/
def hashtagMatch (cs : List Char) : Bool :=
  !cs.isEmpty && cs.all Char.isAlphanum

/-- `normalize_participant_id` from the source: strip, reject empty,
match `PID_PATTERN`, uppercase, and prepend `P` when absent. -/
def normalize_participant_id (text : List Char) : Option (List Char) :=
  let t := pyStrip text
  if t.isEmpty then none
  else if pidMatch t then
    let u := t.map Char.toUpper
    if u.head? = some 'P' then some u else some ('P' :: u)
  else none

/-- The hash-stripping step of `parse_hashtag`: drop a single leading
`#` when present (`if t.startswith("#"): t = t[1:]`). -/
def unhash (t : List Char) : List Char :=
  if t.head? = some '#' then t.tail else t

/-- `parse_hashtag` from the source: reject empty input, strip, reject
empty, drop one leading `#`, reject a space, match `HASHTAG_PATTERN`. -/
def parse_hashtag (text : List Char) : Option (List Char) :=
  if text.isEmpty then none
  else
    let t := pyStrip text
    if t.isEmpty then none
    else
      let t2 := unhash t
      if t2.contains ' ' then none
      else if hashtagMatch t2 then some t2 else none

/-- The CSV header row written by `ensure_csv_header`. -/
def CSV_HEADER : List String :=
  ["unix_time", "participant_id", "round_index", "hashtag", "prompt"]

/-- The CSV file on disk: `none` when the file does not exist, otherwise
the list of its rows. -/
abbrev CsvFile := Option (List (List String))

/-- `ensure_csv_header` from the source: create the file with exactly the
header row when it does not exist, otherwise return without touching it. -/
def ensure_csv_header (fs : CsvFile) : CsvFile :=
  match fs with
  | some rows => some rows
  | none => some [CSV_HEADER]

/-- The fixed `PROMPTS` list from the source (three rounds). -/
def PROMPTS : List String :=
  ["Please submit a short hashtag response.",
   "Please submit another short hashtag response.",
   "Please submit another short hashtag response."]

def INTRO_TEXT : String := "Starting the game now."

def DONE_TEXT : String := "All done. Thank you!"

def INVALID_HASHTAG_TEXT : String :=
  "Please reply with a single hashtag-style word using only letters and numbers.\nNo spaces. Example: #breakingnews"

/-- The invalid-participant-code reply sent inline by `message_handler`. -/
def INVALID_CODE_TEXT : String :=
  "That does not look like a valid participant code.\nPlease enter something like P014 (letters + numbers only)."

/-- The `/start` reply prompting for a participant code. -/
def WELCOME_TEXT : String :=
  "Welcome. Please enter your participant code to begin (example: P014).\nDo not enter your name or any personal info."

/-- The `/restart` reply. -/
def RESTART_TEXT : String :=
  "Restarted. Please enter your participant code to begin (example: P014)."

/-- The withdrawal notice sent by `start_cmd` and `restart_cmd` when
`state.withdrawn` is set. -/
def WITHDRAWN_TEXT : String :=
  "You previously withdrew. If this is a mistake, contact the research team."

/-- The format guidance appended to each round prompt by
`send_round_prompt`. -/
def PROMPT_SUFFIX : String :=
  "\nReply with a hashtag (example: #breakingnews)."

/-- `UserState` from the source: the per-chat session record. -/
structure UserState where
  participant_id : Option String
  round_idx : Nat
  awaiting_hashtag : Bool
  withdrawn : Bool
deriving Repr, DecidableEq

/-- The dataclass defaults: fresh sessions created by `get_state`. -/
def UserState.initial : UserState :=
  { participant_id := none, round_idx := 0, awaiting_hashtag := false,
    withdrawn := false }

/-- One persisted response row written by `save_row` (the `time.time()`
column is environmental and omitted; see the module docstring). -/
structure Row where
  participant_id : String
  round_idx : Nat
  hashtag : String
  prompt : String
deriving Repr, DecidableEq

/-- `save_row` from the source: look up `PROMPTS[round_idx]` (raising
`IndexError` when out of range) and append one row to the CSV; `ioFail`
models an I/O error during the write. An `Except.error` is an exception
propagating out of `save_row`. -/
def save_row (ioFail : Bool) (pid : String) (round : Nat) (tag : String) :
    Except Unit Row :=
  if h : round < PROMPTS.length then
    if ioFail then Except.error ()
    else Except.ok ⟨pid, round, tag, PROMPTS.get ⟨round, h⟩⟩
  else Except.error ()

/-- `send_round_prompt` from the source: past the last round, clear
`awaiting_hashtag` and send `DONE_TEXT`; otherwise set `awaiting_hashtag`
and send the current prompt with format guidance. Returns the updated
state and the replies sent. -/
def send_round_prompt (s : UserState) : UserState × List String :=
  if h : PROMPTS.length ≤ s.round_idx then
    ({ s with awaiting_hashtag := false }, [DONE_TEXT])
  else
    ({ s with awaiting_hashtag := true },
     [PROMPTS.get ⟨s.round_idx, by omega⟩ ++ PROMPT_SUFFIX])

/-- The result of one handler invocation: the session state afterwards,
the replies sent, the rows appended to the CSV, and whether an uncaught
exception propagated to the framework. -/
structure StepOut where
  state : UserState
  replies : List String
  rows : List Row
  raised : Bool
deriving Repr, DecidableEq

/-- `message_handler` from the source: route one non-command text message.
Ignores empty text; while unidentified, validates a participant code;
while awaiting a hashtag, validates and persists the response and
advances the round; otherwise re-issues the current prompt. `ioFail`
models the CSV append failing. -/
def message_handler (ioFail : Bool) (s : UserState) (text : List Char) :
    StepOut :=
  if text.isEmpty then ⟨s, [], [], false⟩
  else
    match s.participant_id with
    | none =>
      match normalize_participant_id (pyStrip text) with
      | none => ⟨s, [INVALID_CODE_TEXT], [], false⟩
      | some pid =>
        let s1 := { s with participant_id := some (String.mk pid) }
        let pr := send_round_prompt s1
        ⟨pr.1, INTRO_TEXT :: pr.2, [], false⟩
    | some pid =>
      if s.awaiting_hashtag then
        match parse_hashtag (pyStrip text) with
        | none => ⟨s, [INVALID_HASHTAG_TEXT], [], false⟩
        | some cleaned =>
          match save_row ioFail pid s.round_idx (String.mk cleaned) with
          | Except.error _ => ⟨s, [], [], true⟩
          | Except.ok row =>
            let s1 := { s with round_idx := s.round_idx + 1,
                               awaiting_hashtag := false }
            if PROMPTS.length ≤ s1.round_idx then
              ⟨s1, [DONE_TEXT], [row], false⟩
            else
              let pr := send_round_prompt s1
              ⟨pr.1, pr.2, [row], false⟩
      else
        let pr := send_round_prompt s
        ⟨pr.1, pr.2, [], false⟩

/-- `start_cmd` from the source: refuse when withdrawn; otherwise reset
round progression, keep `participant_id`, and prompt for the code. -/
def start_cmd (s : UserState) : UserState × List String :=
  if s.withdrawn then (s, [WITHDRAWN_TEXT])
  else ({ s with round_idx := 0, awaiting_hashtag := false }, [WELCOME_TEXT])

/-- `restart_cmd` from the source: refuse when withdrawn; otherwise clear
the participant identity and all round progression. -/
def restart_cmd (s : UserState) : UserState × List String :=
  if s.withdrawn then (s, [WITHDRAWN_TEXT])
  else ({ s with participant_id := none, round_idx := 0,
                 awaiting_hashtag := false }, [RESTART_TEXT])

/-- The inbound events whose handlers `main` registers: `/start`,
`/restart`, and plain text (the `/withdraw` handler is commented out and
not registered). A plain-text event carries the message text and whether
the CSV append would fail. -/
inductive Event where
  | start : Event
  | restart : Event
  | plain : Bool → List Char → Event
deriving Repr, DecidableEq

/-- The state transition of one inbound event. -/
def step (s : UserState) (e : Event) : UserState :=
  match e with
  | Event.start => (start_cmd s).1
  | Event.restart => (restart_cmd s).1
  | Event.plain f t => (message_handler f s t).state

/-- The session state after a sequence of events, starting from the
fresh session `get_state` creates. -/
def run (es : List Event) : UserState :=
  es.foldl step UserState.initial

/-- A session state is reachable when some event sequence produces it. -/
def Reachable (s : UserState) : Prop :=
  ∃ es : List Event, run es = s

/-- A sequence of plain-text events from a given state: the final state
and all rows appended along the way. -/
def runPlain (s : UserState) (inputs : List (Bool × List Char)) :
    UserState × List Row :=
  match inputs with
  | [] => (s, [])
  | (f, t) :: rest =>
    let out := message_handler f s t
    let tail := runPlain out.state rest
    (tail.1, out.rows ++ tail.2)

/-- The inductive invariant of reachable session states. -/
def SessionInv (s : UserState) : Prop :=
  s.withdrawn = false ∧
  (s.participant_id = none → s.round_idx = 0 ∧ s.awaiting_hashtag = false) ∧
  (s.awaiting_hashtag = true → s.round_idx < PROMPTS.length) ∧
  s.round_idx ≤ PROMPTS.length

/-! ## Validator lemmas -/

lemma toUpper_of_isDigit {c : Char} (h : c.isDigit = true) : c.toUpper = c := by
  simp only [Char.isDigit, Bool.and_eq_true, decide_eq_true_eq] at h
  obtain ⟨h1, h2⟩ := h
  have a1 : 48 ≤ c.val.toNat := UInt32.le_toNat_of_le (by norm_num) h1
  have a2 : c.val.toNat ≤ 57 := UInt32.toNat_le_of_le (by norm_num) h2
  unfold Char.toUpper
  have hn : ¬ (c.toNat ≥ 97 ∧ c.toNat ≤ 122) := by
    simp only [Char.toNat]
    omega
  simp [hn]

lemma map_toUpper_of_digits {ds : List Char} (h : ∀ c ∈ ds, c.isDigit = true) :
    ds.map Char.toUpper = ds := by
  induction ds with
  | nil => rfl
  | cons c rest ih =>
    simp only [List.map_cons]
    rw [toUpper_of_isDigit (h c (by simp)), ih (fun x hx => h x (by simp [hx]))]

lemma digits24_iff {cs : List Char} :
    digits24 cs = true ↔
      2 ≤ cs.length ∧ cs.length ≤ 4 ∧ ∀ c ∈ cs, c.isDigit = true := by
  simp [digits24, List.all_eq_true, and_assoc]

lemma pidMatch_iff {cs : List Char} :
    pidMatch cs = true ↔
      ∃ ds : List Char, 2 ≤ ds.length ∧ ds.length ≤ 4 ∧
        (∀ c ∈ ds, c.isDigit = true) ∧
        (cs = ds ∨ cs = 'P' :: ds ∨ cs = 'p' :: ds) := by
  constructor
  · intro h
    rcases cs with _ | ⟨c, rest⟩
    · simp [pidMatch, digits24] at h
    · simp only [pidMatch, Bool.or_eq_true, Bool.and_eq_true,
        decide_eq_true_eq] at h
      rcases h with ⟨hc, hd⟩ | hd
      · rcases digits24_iff.mp hd with ⟨hl, hu, hds⟩
        rcases hc with hP | hp
        · exact ⟨rest, hl, hu, hds, Or.inr (Or.inl (by rw [hP]))⟩
        · exact ⟨rest, hl, hu, hds, Or.inr (Or.inr (by rw [hp]))⟩
      · rcases digits24_iff.mp hd with ⟨hl, hu, hds⟩
        exact ⟨c :: rest, hl, hu, hds, Or.inl rfl⟩
  · rintro ⟨ds, hl, hu, hds, hcs | hcs | hcs⟩ <;> subst hcs <;>
      simp [pidMatch, digits24_iff.mpr ⟨hl, hu, hds⟩]

lemma normalize_isSome_imp {cs : List Char} {r : List Char}
    (h : normalize_participant_id cs = some r) :
    pidMatch (pyStrip cs) = true := by
  unfold normalize_participant_id at h
  by_cases h1 : (pyStrip cs).isEmpty
  · simp [h1] at h
  · by_cases h2 : pidMatch (pyStrip cs) = true
    · exact h2
    · simp [h1, h2] at h

lemma normalize_eq_of_shape {cs ds : List Char}
    (hl : 2 ≤ ds.length) (hu : ds.length ≤ 4)
    (hds : ∀ c ∈ ds, c.isDigit = true)
    (hloc : pyStrip cs = ds ∨ pyStrip cs = 'P' :: ds ∨ pyStrip cs = 'p' :: ds) :
    normalize_participant_id cs = some ('P' :: ds) := by
  have hmatch : pidMatch (pyStrip cs) = true :=
    pidMatch_iff.mpr ⟨ds, hl, hu, hds, hloc⟩
  have hne : ¬ (pyStrip cs).isEmpty := by
    have hds0 : ds ≠ [] := by rintro rfl; simp at hl
    rcases hloc with hc | hc | hc <;> rw [hc] <;> simp [List.isEmpty_iff, hds0]
  unfold normalize_participant_id
  simp only [hne, hmatch, if_true, if_false, Bool.false_eq_true, ite_false,
    ite_true]
  rcases hloc with hc | hc | hc <;> rw [hc]
  · rw [map_toUpper_of_digits hds]
    rcases ds with _ | ⟨d, ds2⟩
    · simp at hl
    · have hd : d.isDigit = true := hds d (by simp)
      have hdP : d ≠ 'P' := by
        intro hcontra
        rw [hcontra] at hd
        simp [Char.isDigit] at hd
      simp [hdP]
  · simp [List.map_cons, map_toUpper_of_digits hds]
  · simp [List.map_cons, map_toUpper_of_digits hds]

lemma normalize_eq_some_iff {cs r : List Char} :
    normalize_participant_id cs = some r ↔
      ∃ ds : List Char, 2 ≤ ds.length ∧ ds.length ≤ 4 ∧
        (∀ c ∈ ds, c.isDigit = true) ∧
        (pyStrip cs = ds ∨ pyStrip cs = 'P' :: ds ∨ pyStrip cs = 'p' :: ds) ∧
        r = 'P' :: ds := by
  constructor
  · intro h
    rcases pidMatch_iff.mp (normalize_isSome_imp h) with ⟨ds, hl, hu, hds, hloc⟩
    have hval := normalize_eq_of_shape hl hu hds hloc
    rw [h] at hval
    exact ⟨ds, hl, hu, hds, hloc, Option.some_inj.mp hval⟩
  · rintro ⟨ds, hl, hu, hds, hloc, rfl⟩
    exact normalize_eq_of_shape hl hu hds hloc

lemma parse_hashtag_eq_some_iff {cs r : List Char} :
    parse_hashtag cs = some r ↔
      r = unhash (pyStrip cs) ∧ r ≠ [] ∧ ∀ c ∈ r, c.isAlphanum = true := by
  constructor
  · intro h
    unfold parse_hashtag at h
    by_cases h0 : cs.isEmpty = true
    · simp [h0] at h
    · by_cases h1 : (pyStrip cs).isEmpty = true
      · simp [h0, h1] at h
      · by_cases hsp : ' ' ∈ unhash (pyStrip cs)
        · simp [h0, h1, hsp] at h
        · by_cases hm : hashtagMatch (unhash (pyStrip cs)) = true
          · simp [h0, h1, hsp, hm] at h
            simp only [hashtagMatch, Bool.and_eq_true, Bool.not_eq_true,
              List.all_eq_true] at hm
            subst h
            refine ⟨rfl, ?_, hm.2⟩
            intro hcontra
            rw [hcontra] at hm
            simp at hm
          · simp [h0, h1, hsp, hm] at h
  · rintro ⟨rfl, hne, hall⟩
    unfold parse_hashtag
    have h0 : cs.isEmpty = false := by
      rcases cs with _ | ⟨c, cs2⟩
      · exact absurd rfl hne
      · rfl
    have h1 : (pyStrip cs).isEmpty = false := by
      rcases hps : pyStrip cs with _ | ⟨c, t2⟩
      · rw [hps] at hne
        exact absurd rfl hne
      · rfl
    have hsp : ' ' ∉ unhash (pyStrip cs) := by
      intro hc
      have := hall ' ' hc
      simp [Char.isAlphanum, Char.isAlpha, Char.isUpper, Char.isLower,
        Char.isDigit] at this
    have hm : hashtagMatch (unhash (pyStrip cs)) = true := by
      simp only [hashtagMatch, Bool.and_eq_true, Bool.not_eq_true,
        List.all_eq_true]
      exact ⟨by simp [List.isEmpty_iff, hne], hall⟩
    simp [h0, h1, hsp, hm]

/-! ## State machine lemmas -/

lemma message_handler_nil (f : Bool) (s : UserState) :
    message_handler f s [] = ⟨s, [], [], false⟩ := rfl

lemma ne_nil_of_parse_some {t h : List Char}
    (hn : parse_hashtag (pyStrip t) = some h) : t ≠ [] := by
  rintro rfl
  simp [parse_hashtag, pyStrip] at hn

lemma save_row_ioFail (pid : String) (round : Nat) (tag : String) :
    save_row true pid round tag = Except.error () := by
  unfold save_row
  split <;> simp

lemma send_round_prompt_done {s : UserState}
    (h : PROMPTS.length ≤ s.round_idx) :
    send_round_prompt s = ({ s with awaiting_hashtag := false }, [DONE_TEXT]) := by
  unfold send_round_prompt
  rw [dif_pos h]

lemma send_round_prompt_next {s : UserState}
    (h : s.round_idx < PROMPTS.length) :
    send_round_prompt s =
      ({ s with awaiting_hashtag := true },
       [PROMPTS.getD s.round_idx "" ++ PROMPT_SUFFIX]) := by
  unfold send_round_prompt
  rw [dif_neg (by omega)]
  rw [List.getD_eq_getElem PROMPTS "" h]
  simp [List.get_eq_getElem]

lemma set_awaiting_false_eq {s : UserState} (h : s.awaiting_hashtag = false) :
    { s with awaiting_hashtag := false } = s := by
  cases s
  simp_all

lemma message_handler_code_reject {s : UserState} {t : List Char} (f : Bool)
    (ht : t ≠ []) (hp : s.participant_id = none)
    (hn : normalize_participant_id (pyStrip t) = none) :
    message_handler f s t = ⟨s, [INVALID_CODE_TEXT], [], false⟩ := by
  unfold message_handler
  have h0 : t.isEmpty = false := by simp [List.isEmpty_iff, ht]
  simp [h0, hp, hn]

lemma message_handler_code_accept {s : UserState} {t pid : List Char} (f : Bool)
    (ht : t ≠ []) (hp : s.participant_id = none)
    (hn : normalize_participant_id (pyStrip t) = some pid) :
    message_handler f s t =
      ⟨(send_round_prompt { s with participant_id := some (String.mk pid) }).1,
       INTRO_TEXT ::
         (send_round_prompt { s with participant_id := some (String.mk pid) }).2,
       [], false⟩ := by
  unfold message_handler
  have h0 : t.isEmpty = false := by simp [List.isEmpty_iff, ht]
  simp [h0, hp, hn]

lemma message_handler_tag_reject {s : UserState} {t : List Char} {p : String}
    (f : Bool) (ht : t ≠ []) (hp : s.participant_id = some p)
    (ha : s.awaiting_hashtag = true)
    (hn : parse_hashtag (pyStrip t) = none) :
    message_handler f s t = ⟨s, [INVALID_HASHTAG_TEXT], [], false⟩ := by
  unfold message_handler
  have h0 : t.isEmpty = false := by simp [List.isEmpty_iff, ht]
  simp [h0, hp, ha, hn]

lemma message_handler_tag_err {s : UserState} {t tag : List Char} {p : String}
    {f : Bool} (hp : s.participant_id = some p)
    (ha : s.awaiting_hashtag = true)
    (hn : parse_hashtag (pyStrip t) = some tag)
    (herr : save_row f p s.round_idx (String.mk tag) = Except.error ()) :
    message_handler f s t = ⟨s, [], [], true⟩ := by
  unfold message_handler
  have h0 : t.isEmpty = false := by
    simp [List.isEmpty_iff, ne_nil_of_parse_some hn]
  simp [h0, hp, ha, hn, herr]

lemma message_handler_tag_ok {s : UserState} {t tag : List Char} {p : String}
    {f : Bool} {row : Row} (hp : s.participant_id = some p)
    (ha : s.awaiting_hashtag = true)
    (hn : parse_hashtag (pyStrip t) = some tag)
    (hok : save_row f p s.round_idx (String.mk tag) = Except.ok row) :
    message_handler f s t =
      if PROMPTS.length ≤ s.round_idx + 1 then
        ⟨{ s with round_idx := s.round_idx + 1, awaiting_hashtag := false },
         [DONE_TEXT], [row], false⟩
      else
        ⟨(send_round_prompt
            { s with round_idx := s.round_idx + 1,
                     awaiting_hashtag := false }).1,
         (send_round_prompt
            { s with round_idx := s.round_idx + 1,
                     awaiting_hashtag := false }).2,
         [row], false⟩ := by
  unfold message_handler
  have h0 : t.isEmpty = false := by
    simp [List.isEmpty_iff, ne_nil_of_parse_some hn]
  simp [h0, hp, ha, hn, hok]

lemma message_handler_fallback {s : UserState} {t : List Char} {p : String}
    (f : Bool) (ht : t ≠ []) (hp : s.participant_id = some p)
    (ha : s.awaiting_hashtag = false) :
    message_handler f s t =
      ⟨(send_round_prompt s).1, (send_round_prompt s).2, [], false⟩ := by
  unfold message_handler
  have h0 : t.isEmpty = false := by simp [List.isEmpty_iff, ht]
  simp [h0, hp, ha]

lemma sessionInv_initial : SessionInv UserState.initial := by
  refine ⟨rfl, fun _ => ⟨rfl, rfl⟩, ?_, Nat.zero_le _⟩
  intro h
  cases h

lemma sessionInv_step {s : UserState} (e : Event) (hs : SessionInv s) :
    SessionInv (step s e) := by
  obtain ⟨hw, hpid0, haw, hle⟩ := hs
  cases e with
  | start =>
    simp only [step, start_cmd, hw, Bool.false_eq_true, if_false]
    refine ⟨rfl, fun _ => ⟨rfl, rfl⟩, ?_, Nat.zero_le _⟩
    intro h
    cases h
  | restart =>
    simp only [step, restart_cmd, hw, Bool.false_eq_true, if_false]
    refine ⟨rfl, fun _ => ⟨rfl, rfl⟩, ?_, Nat.zero_le _⟩
    intro h
    cases h
  | plain f t =>
    by_cases ht : t = []
    · subst ht
      simp only [step, message_handler_nil]
      exact ⟨hw, hpid0, haw, hle⟩
    · simp only [step]
      cases hp : s.participant_id with
      | none =>
        cases hn : normalize_participant_id (pyStrip t) with
        | none =>
          rw [message_handler_code_reject f ht hp hn]
          exact ⟨hw, hpid0, haw, hle⟩
        | some pid =>
          rw [message_handler_code_accept f ht hp hn]
          by_cases hc : PROMPTS.length ≤ s.round_idx
          · rw [send_round_prompt_done (by simpa using hc)]
            refine ⟨hw, ?_, ?_, by simpa using hle⟩
            · intro h
              cases h
            · intro h
              cases h
          · rw [send_round_prompt_next (by simpa using Nat.lt_of_not_le hc)]
            refine ⟨hw, ?_, ?_, by simpa using hle⟩
            · intro h
              cases h
            · intro _
              simpa using Nat.lt_of_not_le hc
      | some pid =>
        cases ha : s.awaiting_hashtag with
        | false =>
          rw [message_handler_fallback f ht hp ha]
          by_cases hc : PROMPTS.length ≤ s.round_idx
          · rw [send_round_prompt_done hc]
            refine ⟨hw, ?_, ?_, hle⟩
            · intro h
              simp only at h
              rw [hp] at h
              cases h
            · intro h
              cases h
          · rw [send_round_prompt_next (Nat.lt_of_not_le hc)]
            refine ⟨hw, ?_, ?_, hle⟩
            · intro h
              simp only at h
              rw [hp] at h
              cases h
            · intro _
              exact Nat.lt_of_not_le hc
        | true =>
          cases hn : parse_hashtag (pyStrip t) with
          | none =>
            rw [message_handler_tag_reject f ht hp ha hn]
            exact ⟨hw, hpid0, haw, hle⟩
          | some tag =>
            have hlt : s.round_idx < PROMPTS.length := haw ha
            cases hsave : save_row f pid s.round_idx (String.mk tag) with
            | error u =>
              rw [message_handler_tag_err hp ha hn hsave]
              exact ⟨hw, hpid0, haw, hle⟩
            | ok row =>
              rw [message_handler_tag_ok hp ha hn hsave]
              by_cases hc : PROMPTS.length ≤ s.round_idx + 1
              · rw [if_pos hc]
                refine ⟨hw, ?_, ?_, by dsimp only; omega⟩
                · intro h
                  simp only at h
                  rw [hp] at h
                  cases h
                · intro h
                  cases h
              · rw [if_neg hc]
                rw [send_round_prompt_next (by simpa using Nat.lt_of_not_le hc)]
                refine ⟨hw, ?_, ?_, by dsimp only; omega⟩
                · intro h
                  simp only at h
                  rw [hp] at h
                  cases h
                · intro _
                  dsimp only
                  omega

lemma sessionInv_run (es : List Event) : SessionInv (run es) := by
  have h : ∀ (l : List Event) (s0 : UserState),
      SessionInv s0 → SessionInv (l.foldl step s0) := by
    intro l
    induction l with
    | nil => exact fun s0 hs => hs
    | cons e rest ih => exact fun s0 hs => ih _ (sessionInv_step e hs)
  exact h es UserState.initial sessionInv_initial

lemma reachable_inv {s : UserState} (h : Reachable s) : SessionInv s := by
  obtain ⟨es, rfl⟩ := h
  exact sessionInv_run es

/-! ## Claims -/

/-- Claim C4: `normalize_participant_id` maps "p14", "P14" and "14" to
"P14"; after trimming it accepts exactly an optional leading `P`/`p`
followed by 2 to 4 decimal digits (rejecting empty and everything else),
and on acceptance returns the digits uppercased with a leading `P`. -/
theorem normalize_participant_code_spec :
    (normalize_participant_id ['p', '1', '4'] = some ['P', '1', '4'] ∧
     normalize_participant_id ['P', '1', '4'] = some ['P', '1', '4'] ∧
     normalize_participant_id ['1', '4'] = some ['P', '1', '4']) ∧
    (∀ cs : List Char, (normalize_participant_id cs).isSome = true ↔
       ∃ ds : List Char, 2 ≤ ds.length ∧ ds.length ≤ 4 ∧
         (∀ c ∈ ds, c.isDigit = true) ∧
         (pyStrip cs = ds ∨ pyStrip cs = 'P' :: ds ∨ pyStrip cs = 'p' :: ds)) ∧
    (∀ cs r : List Char, normalize_participant_id cs = some r →
       ∃ ds : List Char, 2 ≤ ds.length ∧ ds.length ≤ 4 ∧
         (∀ c ∈ ds, c.isDigit = true) ∧ r = 'P' :: ds ∧
         (pyStrip cs = ds ∨ pyStrip cs = 'P' :: ds ∨ pyStrip cs = 'p' :: ds)) := by
  refine ⟨⟨by decide, by decide, by decide⟩, ?_, ?_⟩
  · intro cs
    constructor
    · intro h
      obtain ⟨r, hr⟩ := Option.isSome_iff_exists.mp h
      obtain ⟨ds, hl, hu, hds, hloc, _⟩ := normalize_eq_some_iff.mp hr
      exact ⟨ds, hl, hu, hds, hloc⟩
    · rintro ⟨ds, hl, hu, hds, hloc⟩
      rw [normalize_eq_of_shape hl hu hds hloc]
      rfl
  · intro cs r h
    obtain ⟨ds, hl, hu, hds, hloc, hr⟩ := normalize_eq_some_iff.mp h
    exact ⟨ds, hl, hu, hds, hr, hloc⟩

/-- Witness for C4 at the concrete input "p14". -/
theorem normalize_participant_code_spec_witness :
    ∃ ds : List Char, 2 ≤ ds.length ∧ ds.length ≤ 4 ∧
      (∀ c ∈ ds, c.isDigit = true) ∧ (['P', '1', '4'] : List Char) = 'P' :: ds ∧
      (pyStrip ['p', '1', '4'] = ds ∨ pyStrip ['p', '1', '4'] = 'P' :: ds ∨
        pyStrip ['p', '1', '4'] = 'p' :: ds) :=
  normalize_participant_code_spec.2.2 ['p', '1', '4'] ['P', '1', '4'] (by decide)

/-- Claim C5: `parse_hashtag` maps "#Abc123" and "Abc123" to "Abc123";
an input is accepted exactly when the trimmed, hash-stripped token is
non-empty and all its characters are ASCII letters or digits, and the
accepted value is that token; any token containing a space is rejected. -/
theorem parse_response_spec :
    (parse_hashtag ['#', 'A', 'b', 'c', '1', '2', '3'] =
       some ['A', 'b', 'c', '1', '2', '3'] ∧
     parse_hashtag ['A', 'b', 'c', '1', '2', '3'] =
       some ['A', 'b', 'c', '1', '2', '3']) ∧
    (∀ cs r : List Char, parse_hashtag cs = some r ↔
       (r = unhash (pyStrip cs) ∧ r ≠ [] ∧ ∀ c ∈ r, c.isAlphanum = true)) ∧
    (∀ cs : List Char, ' ' ∈ unhash (pyStrip cs) → parse_hashtag cs = none) := by
  refine ⟨⟨by decide, by decide⟩, fun cs r => parse_hashtag_eq_some_iff, ?_⟩
  intro cs hmem
  cases hpc : parse_hashtag cs with
  | none => rfl
  | some r =>
    obtain ⟨heq, hne, hall⟩ := parse_hashtag_eq_some_iff.mp hpc
    have := hall ' ' (heq ▸ hmem)
    simp [Char.isAlphanum, Char.isAlpha, Char.isUpper, Char.isLower,
      Char.isDigit] at this

/-- Witness for C5 at the concrete input "#Ab". -/
theorem parse_response_spec_witness :
    (['A', 'b'] : List Char) = unhash (pyStrip ['#', 'A', 'b']) ∧
    (['A', 'b'] : List Char) ≠ [] ∧
    ∀ c ∈ (['A', 'b'] : List Char), c.isAlphanum = true :=
  (parse_response_spec.2.1 ['#', 'A', 'b'] ['A', 'b']).mp (by decide)

/-- Claim C9: `parse_hashtag` rejects every input whose trimmed,
hash-stripped token is empty (in particular "#" and "  #  "), and every
accepted token is non-empty. -/
theorem parse_response_rejects_empty_token :
    parse_hashtag ['#'] = none ∧
    parse_hashtag [' ', ' ', '#', ' ', ' '] = none ∧
    (∀ cs : List Char, unhash (pyStrip cs) = [] → parse_hashtag cs = none) ∧
    (∀ cs r : List Char, parse_hashtag cs = some r → r ≠ []) := by
  refine ⟨by decide, by decide, ?_, ?_⟩
  · intro cs hempty
    cases hpc : parse_hashtag cs with
    | none => rfl
    | some r =>
      obtain ⟨heq, hne, _⟩ := parse_hashtag_eq_some_iff.mp hpc
      exact absurd (heq.trans hempty) hne
  · intro cs r h
    exact (parse_hashtag_eq_some_iff.mp h).2.1

/-- Witness for C9 at the concrete input "#a". -/
theorem parse_response_rejects_empty_token_witness :
    (['a'] : List Char) ≠ [] :=
  parse_response_rejects_empty_token.2.2.2 ['#', 'a'] ['a'] (by decide)

/-- Claim C8: `ensure_csv_header` is idempotent, creates the file with
exactly one header row when absent, and leaves an existing file's
contents entirely unchanged. -/
theorem ensure_csv_header_idempotent :
    (∀ fs : CsvFile,
       ensure_csv_header (ensure_csv_header fs) = ensure_csv_header fs) ∧
    ensure_csv_header none = some [CSV_HEADER] ∧
    (∀ rows : List (List String), ensure_csv_header (some rows) = some rows) := by
  refine ⟨?_, rfl, fun rows => rfl⟩
  intro fs
  cases fs <;> rfl

/-- Claim C7: in every reachable session state, `round_idx` never exceeds
`PROMPTS.length`, and reaching the bound is exactly the completion
condition `round_idx == PROMPT_COUNT`. -/
theorem roundIndex_never_exceeds_prompt_count (s : UserState)
    (hr : Reachable s) :
    s.round_idx ≤ PROMPTS.length ∧
    (PROMPTS.length ≤ s.round_idx ↔ s.round_idx = PROMPTS.length) := by
  have hle := (reachable_inv hr).2.2.2
  exact ⟨hle, by omega⟩

/-- Witness for C7 at the fresh session. -/
theorem roundIndex_never_exceeds_prompt_count_witness :
    UserState.initial.round_idx ≤ PROMPTS.length ∧
    (PROMPTS.length ≤ UserState.initial.round_idx ↔
      UserState.initial.round_idx = PROMPTS.length) :=
  roundIndex_never_exceeds_prompt_count UserState.initial ⟨[], rfl⟩

/-- Claim C10: no reachable session state has the `withdrawn` flag set
(the `/withdraw` handler is not registered), so the withdrawal-notice
branches of `start_cmd` and `restart_cmd` never fire on reachable
states. -/
theorem withdrawn_never_set (s : UserState) (hr : Reachable s) :
    s.withdrawn = false ∧ (start_cmd s).2 = [WELCOME_TEXT] ∧
    (restart_cmd s).2 = [RESTART_TEXT] := by
  have hw := (reachable_inv hr).1
  refine ⟨hw, ?_, ?_⟩ <;> simp [start_cmd, restart_cmd, hw]

/-- Witness for C10 at the fresh session. -/
theorem withdrawn_never_set_witness :
    UserState.initial.withdrawn = false ∧
    (start_cmd UserState.initial).2 = [WELCOME_TEXT] ∧
    (restart_cmd UserState.initial).2 = [RESTART_TEXT] :=
  withdrawn_never_set UserState.initial ⟨[], rfl⟩

/-- Claim C1: a successfully persisted response in `AwaitingResponse`
advances `round_idx` by exactly one and appends exactly one row for the
old round; an input rejected by either validator leaves every field of
the session unchanged, appends nothing, and emits the corrective
reply. -/
theorem round_increment_and_rejection_frame (s : UserState) (t : List Char) :
    (∀ (p : String) (tag : List Char), Reachable s →
       s.participant_id = some p → s.awaiting_hashtag = true →
       parse_hashtag (pyStrip t) = some tag →
       (message_handler false s t).state.round_idx = s.round_idx + 1 ∧
       (message_handler false s t).raised = false ∧
       ∃ row : Row, (message_handler false s t).rows = [row] ∧
         row.participant_id = p ∧ row.round_idx = s.round_idx ∧
         row.hashtag = String.mk tag) ∧
    (∀ f : Bool, t ≠ [] → s.participant_id = none →
       normalize_participant_id (pyStrip t) = none →
       message_handler f s t = ⟨s, [INVALID_CODE_TEXT], [], false⟩) ∧
    (∀ (f : Bool) (p : String), t ≠ [] → s.participant_id = some p →
       s.awaiting_hashtag = true → parse_hashtag (pyStrip t) = none →
       message_handler f s t = ⟨s, [INVALID_HASHTAG_TEXT], [], false⟩) := by
  refine ⟨?_, ?_, ?_⟩
  · intro p tag hr hp ha hn
    have hlt : s.round_idx < PROMPTS.length := (reachable_inv hr).2.2.1 ha
    have hok : save_row false p s.round_idx (String.mk tag) =
        Except.ok ⟨p, s.round_idx, String.mk tag,
          PROMPTS.get ⟨s.round_idx, hlt⟩⟩ := by
      unfold save_row
      rw [dif_pos hlt]
      simp
    rw [message_handler_tag_ok hp ha hn hok]
    by_cases hc : PROMPTS.length ≤ s.round_idx + 1
    · rw [if_pos hc]
      exact ⟨rfl, rfl, _, rfl, rfl, rfl, rfl⟩
    · rw [if_neg hc]
      rw [send_round_prompt_next (by dsimp only; omega)]
      exact ⟨rfl, rfl, _, rfl, rfl, rfl, rfl⟩
  · intro f ht hp hn
    exact message_handler_code_reject f ht hp hn
  · intro f p ht hp ha hn
    exact message_handler_tag_reject f ht hp ha hn

/-- Witness for C1 covering all three cases at concrete inputs. -/
theorem round_increment_and_rejection_frame_witness :
    (message_handler false ⟨some "P14", 0, true, false⟩
       ['#', 'a', 'b']).state.round_idx = 0 + 1 ∧
    message_handler false UserState.initial ['h', 'i'] =
      ⟨UserState.initial, [INVALID_CODE_TEXT], [], false⟩ ∧
    message_handler false ⟨some "P14", 0, true, false⟩ ['?'] =
      ⟨⟨some "P14", 0, true, false⟩, [INVALID_HASHTAG_TEXT], [], false⟩ := by
  refine ⟨?_, ?_, ?_⟩
  · exact ((round_increment_and_rejection_frame ⟨some "P14", 0, true, false⟩
      ['#', 'a', 'b']).1 "P14" ['a', 'b']
      ⟨[Event.plain false ['p', '1', '4']], by decide⟩ rfl rfl (by decide)).1
  · exact (round_increment_and_rejection_frame UserState.initial
      ['h', 'i']).2.1 false (by decide) rfl (by decide)
  · exact (round_increment_and_rejection_frame ⟨some "P14", 0, true, false⟩
      ['?']).2.2 false "P14" (by decide) rfl rfl (by decide)

/-- Claim C2: once a session with a participant code reaches
`round_idx = PROMPTS.length`, every further non-empty plain-text event
replies exactly `DONE_TEXT`, appends nothing, and leaves the whole
session (including `round_idx` and `participant_id`) unchanged; any
sequence of further plain-text events appends no rows at all. -/
theorem completion_boundary (s : UserState) (p : String)
    (hr : Reachable s) (hp : s.participant_id = some p)
    (hN : s.round_idx = PROMPTS.length) :
    (∀ (f : Bool) (t : List Char), t ≠ [] →
       message_handler f s t = ⟨s, [DONE_TEXT], [], false⟩) ∧
    (∀ inputs : List (Bool × List Char), runPlain s inputs = (s, [])) := by
  have hinv := reachable_inv hr
  have ha : s.awaiting_hashtag = false := by
    cases hval : s.awaiting_hashtag
    · rfl
    · have := hinv.2.2.1 hval
      omega
  have hstep : ∀ (f : Bool) (t : List Char), t ≠ [] →
      message_handler f s t = ⟨s, [DONE_TEXT], [], false⟩ := by
    intro f t ht
    rw [message_handler_fallback f ht hp ha,
      send_round_prompt_done (by omega), set_awaiting_false_eq ha]
  refine ⟨hstep, ?_⟩
  intro inputs
  induction inputs with
  | nil => rfl
  | cons it rest ih =>
    obtain ⟨f, t⟩ := it
    by_cases ht : t = []
    · subst ht
      unfold runPlain
      rw [message_handler_nil]
      simp [ih]
    · unfold runPlain
      rw [hstep f t ht]
      simp [ih]

/-- Witness for C2 at a concretely reached completed session. -/
theorem completion_boundary_witness :
    message_handler false ⟨some "P14", 3, false, false⟩ ['z'] =
      ⟨⟨some "P14", 3, false, false⟩, [DONE_TEXT], [], false⟩ ∧
    runPlain ⟨some "P14", 3, false, false⟩ [(false, ['y'])] =
      (⟨some "P14", 3, false, false⟩, []) := by
  have h := completion_boundary ⟨some "P14", 3, false, false⟩ "P14"
    ⟨[Event.plain false ['p', '1', '4'], Event.plain false ['a', '1'],
      Event.plain false ['b', '2'], Event.plain false ['c', '3']], by decide⟩
    rfl (by decide)
  exact ⟨h.1 false ['z'] (by decide), h.2 [(false, ['y'])]⟩

/-- Claim C3: when the CSV append raises an I/O error while handling a
valid hashtag in `AwaitingResponse`, the session state is entirely
unchanged (`round_idx` and `awaiting_hashtag` keep their values), no row
is appended, no reply is sent, and the exception propagates to the
framework caller as a distinguishable signal (`raised = true`). -/
theorem persistence_failure_preserves_state (s : UserState) (p : String)
    (tag t : List Char) (hp : s.participant_id = some p)
    (ha : s.awaiting_hashtag = true)
    (hn : parse_hashtag (pyStrip t) = some tag) :
    message_handler true s t = ⟨s, [], [], true⟩ :=
  message_handler_tag_err hp ha hn
    (save_row_ioFail p s.round_idx (String.mk tag))

/-- Witness for C3 at a concrete awaiting session. -/
theorem persistence_failure_preserves_state_witness :
    message_handler true ⟨some "P14", 0, true, false⟩ ['#', 'a', 'b'] =
      ⟨⟨some "P14", 0, true, false⟩, [], [], true⟩ :=
  persistence_failure_preserves_state ⟨some "P14", 0, true, false⟩ "P14"
    ['a', 'b'] ['#', 'a', 'b'] rfl rfl (by decide)

/-- Counterexample to C6 as stated: in the `BetweenRounds` state with
`round_idx = 0`, a plain-text event does NOT leave the session unchanged
— it sets `awaiting_hashtag` to `true`. -/
theorem between_rounds_counterexample :
    (message_handler false ⟨some "P14", 0, false, false⟩ ['h', 'i']).state ≠
      ⟨some "P14", 0, false, false⟩ := by
  intro hcontra
  have h1 : (message_handler false ⟨some "P14", 0, false, false⟩
      ['h', 'i']).state.awaiting_hashtag = true := rfl
  rw [hcontra] at h1
  cases h1

/-- Claim C6 (amended): in `BetweenRounds` a plain-text event re-emits
the current round prompt and sets `awaiting_hashtag` to `true`, leaving
`participant_id`, `round_idx` and `withdrawn` unchanged; in `Complete`
it emits the completion message and leaves the session fully
unchanged. -/
theorem between_rounds_and_complete_reprompt (s : UserState) (p : String)
    (f : Bool) (t : List Char) (ht : t ≠ [])
    (hp : s.participant_id = some p) (ha : s.awaiting_hashtag = false) :
    (s.round_idx < PROMPTS.length →
       message_handler f s t =
         ⟨{ s with awaiting_hashtag := true },
          [PROMPTS.getD s.round_idx "" ++ PROMPT_SUFFIX], [], false⟩) ∧
    (PROMPTS.length ≤ s.round_idx →
       message_handler f s t = ⟨s, [DONE_TEXT], [], false⟩) := by
  constructor
  · intro hlt
    rw [message_handler_fallback f ht hp ha, send_round_prompt_next hlt]
  · intro hge
    rw [message_handler_fallback f ht hp ha, send_round_prompt_done hge,
      set_awaiting_false_eq ha]

/-- Witness for the amended C6 at a concrete `BetweenRounds` session. -/
theorem between_rounds_and_complete_reprompt_witness :
    message_handler false ⟨some "P14", 0, false, false⟩ ['h', 'i'] =
      ⟨⟨some "P14", 0, true, false⟩,
       [PROMPTS.getD 0 "" ++ PROMPT_SUFFIX], [], false⟩ :=
  (between_rounds_and_complete_reprompt ⟨some "P14", 0, false, false⟩ "P14"
    false ['h', 'i'] (by decide) rfl rfl).1 (by decide)
